import Mathlib

/-!
Verification development for the mcp-server-qdrant repository.

Shallow embedding of the core of the repository:
* `src/mcp_server_qdrant/qdrant.py` — the `QdrantConnector` (collection
  lifecycle, `store_memory`, `find_memories`);
* `src/mcp_server_qdrant/mcp_server.py` — the tool routers
  (`QdrantMCPServer`, `DefaultCollectionQdrantMCPServer`,
  `MultiCollectionQdrantMCPServer`) and the factory `create_mcp_server`;
* `src/mcp_server_qdrant/common/wrap_filters.py` — the keyword-argument
  rewriting wrapper.

External collaborators (the Qdrant database client and the embedding
backend) are modelled by explicit state (`QdrantDB`) and by function-valued
parameters (`EmbeddingProvider`, `SearchOracle`): the database's
nearest-neighbour ranking is opaque to this repository, so search results
are an arbitrary function of the stored points, the named query vector,
the limit and the filter.

Note on the source text: line 115 of `qdrant.py` contains a stray backtick
inside the identifier `filter_metadata` (the spec's design notes call this
a stray corruption and state the evident intent); the embedding reads that
token as `filter_metadata`, the parameter declared in the signature of
`find_memories`.
-/

namespace McpQdrant

/-- Python values as they occur in metadata mappings and filter values.
The repository treats these values opaquely (they are compared, stored and
serialized but never computed with), so a small closed universe with a
distinguished `null` (Python `None`) suffices. -/
inductive PyVal where
  | null
  | b (v : Bool)
  | i (v : Int)
  | s (v : String)
  deriving DecidableEq, Repr

/-- A Python `dict` keyed by strings, in insertion order. -/
abbrev PyDict := List (String × PyVal)

/-- Python truthiness of an `Optional[Dict]`: `None` and `{}` are falsy. -/
def pyTruthyDict : Option PyDict → Bool
  | none => false
  | some kvs => !kvs.isEmpty

/-- Python truthiness of an `Optional[str]`: `None` and `""` are falsy. -/
def pyTruthyStrOpt : Option String → Bool
  | none => false
  | some s => !s.isEmpty

/-- First-match association lookup, the model of Python dict access. -/
def assocGet {α : Type} : List (String × α) → String → Option α
  | [], _ => none
  | (k, v) :: rest, key => if key = k then some v else assocGet rest key

/-- Replace the value bound to a key in an association list (the model of
assigning into a Python dict / the database replacing a collection). -/
def setAssoc {α : Type} : List (String × α) → String → α → List (String × α)
  | [], _, _ => []
  | (k, v) :: rest, key, a =>
      if k = key then (k, a) :: setAssoc rest key a else (k, v) :: setAssoc rest key a

/-- Boolean membership in a list of field names (Python `in`). -/
def memberStr : List String → String → Bool
  | [], _ => false
  | x :: xs, f => if f = x then true else memberStr xs f

/-- Distance metric of a vector space (`models.Distance`). Only cosine is
used by the code; a second constructor keeps the choice observable. -/
inductive Distance where
  | COSINE
  | EUCLID
  deriving DecidableEq, Repr

/-- `models.VectorParams`: dimensionality and distance metric of one named
vector space. -/
structure VectorParams where
  size : Nat
  distance : Distance
  deriving DecidableEq, Repr

/-- Point payload as written by the connector: the `document` key always,
the `metadata` key optionally.  `metadata = none` models a payload with no
`metadata` key at all, distinct from `some []` (an empty mapping). -/
structure Payload where
  document : String
  metadata : Option PyDict
  deriving DecidableEq, Repr

/-- One stored point: id, named vectors, payload.  Vector entries are
opaque integer lists; the repository never computes with their contents,
only with their length. -/
structure Point where
  id : String
  vector : List (String × List Int)
  payload : Payload
  deriving DecidableEq, Repr

/-- One collection of the database: its named vector-space configuration
and its stored points. -/
structure Collection where
  config : List (String × VectorParams)
  points : List Point
  deriving DecidableEq, Repr

/-- The observable state of the Qdrant database: collections keyed by
name. -/
structure QdrantDB where
  collections : List (String × Collection)
  deriving DecidableEq, Repr

/-- Look a collection up by name. -/
def getCollection (db : QdrantDB) (name : String) : Option Collection :=
  assocGet db.collections name

/-- `client.collection_exists(name)`. -/
def collection_exists (db : QdrantDB) (name : String) : Bool :=
  (getCollection db name).isSome

/-- The points of a collection, the empty list when it does not exist. -/
def pointsOf (db : QdrantDB) (name : String) : List Point :=
  ((getCollection db name).map Collection.points).getD []

/-- `client.create_collection(name, vectors_config)`: fails (`none`) when
the collection already exists, otherwise adds a fresh empty collection
with the given vector-space configuration. -/
def qdrant_create_collection (db : QdrantDB) (collection_name : String)
    (vectors_config : List (String × VectorParams)) : Option QdrantDB :=
  if collection_exists db collection_name then none
  else some ⟨db.collections ++ [(collection_name, ⟨vectors_config, []⟩)]⟩

/-- Upsert semantics on a point list: a point with the same id is
replaced, otherwise the point is appended. -/
def upsertList (pts : List Point) (p : Point) : List Point :=
  pts.filter (fun q => !(q.id == p.id)) ++ [p]

/-- `client.upsert(name, [point])`: fails (`none`) when the collection
does not exist. -/
def upsertPoint (db : QdrantDB) (collection_name : String) (p : Point) :
    Option QdrantDB :=
  match getCollection db collection_name with
  | none => none
  | some col =>
      some ⟨setAssoc db.collections collection_name
              { col with points := upsertList col.points p }⟩

/-- The embedding backend as seen by the connector (`EmbeddingProvider`):
`embed_query`, `embed_documents`, `get_vector_name`.  Vectors are opaque. -/
structure EmbeddingProvider where
  embed_query : String → List Int
  embed_documents : List String → List (List Int)
  get_vector_name : String

/-- `QdrantConnector` of `qdrant.py`: one fixed collection name and one
embedding provider.  The url / api-key / local-path arguments of
`__init__` only configure the external client handle and carry no
behaviour of their own, so they are not part of the model. -/
structure QdrantConnector where
  collection_name : String
  embedding_provider : EmbeddingProvider

/-- One equality condition of a query filter
(`models.FieldCondition(key=..., match=models.MatchValue(value=...))`). -/
structure FieldCondition where
  key : String
  match_value : PyVal
  deriving DecidableEq, Repr

/-- `models.Filter(must=[...])`: the conjunction of its conditions. -/
structure Filter where
  must : List FieldCondition
  deriving DecidableEq, Repr

/-- The filter construction inside `find_memories` (qdrant.py lines
106-117): when `filter_metadata` is truthy (present and non-empty), one
`FieldCondition` per item of the mapping, each matching key
`metadata.<key>` against the supplied value; otherwise no filter object at
all. -/
def filter_condition_of (filter_metadata : Option PyDict) : Option Filter :=
  if pyTruthyDict filter_metadata then
    some ⟨(filter_metadata.getD []).map (fun kv => ⟨"metadata." ++ kv.1, kv.2⟩)⟩
  else none

/-- A scored point as returned by `client.search`. The score is opaque
(the float is modelled by an integer, never computed with). -/
structure ScoredPoint where
  payload : Payload
  score : Int
  deriving DecidableEq, Repr

/-- The external nearest-neighbour search of the Qdrant client: an
arbitrary function of the collection's points, the vector-space name, the
query vector, the limit and the optional filter. -/
def SearchOracle : Type :=
  List Point → String → List Int → Nat → Option Filter → List ScoredPoint

/-- One row of the list returned by `find_memories`: document, metadata
(note: a mapping, never absent — `payload.get("metadata", {})`), score. -/
structure SearchResult where
  document : String
  metadata : PyDict
  score : Int
  deriving DecidableEq, Repr

/-- `QdrantConnector._ensure_collection_exists` (qdrant.py lines 35-54),
with the collection name as an explicit parameter (in the source it is the
connector's fixed `self._collection_name`; the spec's §4.3 form
`ensure_collection_exists(collection_name)` takes it as an argument):
check existence; if absent, probe the embedding backend once on the fixed
string "sample text", and create the collection with that dimensionality
and cosine distance under the provider's vector name. -/
def ensure_collection_exists (provider : EmbeddingProvider) (db : QdrantDB)
    (collection_name : String) : Option QdrantDB :=
  if collection_exists db collection_name then some db
  else
    let sample_vector := provider.embed_query "sample text"
    let vector_size := sample_vector.length
    let vector_name := provider.get_vector_name
    qdrant_create_collection db collection_name
      [(vector_name, ⟨vector_size, Distance.COSINE⟩)]

/-- `QdrantConnector.store_memory` (qdrant.py lines 56-83): ensure the
collection exists, embed the document, build the payload (the `metadata`
key is written only when `metadata` is truthy, i.e. present and
non-empty), and upsert one point under a freshly generated id
(`uuid.uuid4().hex`, supplied here as the `point_id` argument). -/
def store_memory (c : QdrantConnector) (db : QdrantDB) (information : String)
    (metadata : Option PyDict) (point_id : String) : Option QdrantDB :=
  (ensure_collection_exists c.embedding_provider db c.collection_name).bind
    (fun db1 =>
      let embeddings := c.embedding_provider.embed_documents [information]
      let payload : Payload :=
        { document := information
          metadata := if pyTruthyDict metadata then metadata else none }
      let vector_name := c.embedding_provider.get_vector_name
      upsertPoint db1 c.collection_name
        { id := point_id
          vector := [(vector_name, embeddings.getD 0 [])]
          payload := payload })

/-- `QdrantConnector.find_memories` (qdrant.py lines 85-135): if the
collection does not exist, return the empty list; otherwise embed the
query, build the optional filter, run the client's search, and map each
scored point to a row whose metadata is `payload.get("metadata", {})` —
an absent metadata key is read back as the empty mapping. -/
def find_memories (c : QdrantConnector) (oracle : SearchOracle) (db : QdrantDB)
    (query : String) (limit : Nat) (filter_metadata : Option PyDict) :
    Option (List SearchResult) :=
  match getCollection db c.collection_name with
  | none => some []
  | some col =>
      let query_vector := c.embedding_provider.embed_query query
      let vector_name := c.embedding_provider.get_vector_name
      let filter_condition := filter_condition_of filter_metadata
      let search_results := oracle col.points vector_name query_vector limit filter_condition
      some (search_results.map (fun r =>
        { document := r.payload.document
          metadata := r.payload.metadata.getD []
          score := r.score }))

/-- `Entry` as used by `mcp_server.py`: content plus optional metadata. -/
structure Entry where
  content : String
  metadata : Option PyDict
  deriving DecidableEq, Repr

/-- An entry as returned to the routers by the connector's search: the
original content and (optional) metadata plus a similarity score. -/
structure FoundEntry where
  content : String
  metadata : Option PyDict
  score : Int
  deriving DecidableEq, Repr

/-- Modelled from the spec: the Entry-based connector operation
`store(entry, collection_name)` called by `mcp_server.py` is not under
`src/` (the `qdrant.py` present defines `store_memory` on a fixed
collection instead).  Spec §4.3: ensure the collection exists, embed
`entry.content` via the provider's document-embedding call, and upsert one
record keyed by a freshly generated unique identifier with payload
`document = entry.content, metadata = entry.metadata` and the vector
stored under the provider's vector-space name. -/
def connector_store (provider : EmbeddingProvider) (db : QdrantDB)
    (entry : Entry) (collection_name : String) (point_id : String) :
    Option QdrantDB :=
  (ensure_collection_exists provider db collection_name).bind (fun db1 =>
    let embeddings := provider.embed_documents [entry.content]
    upsertPoint db1 collection_name
      { id := point_id
        vector := [(provider.get_vector_name, embeddings.getD 0 [])]
        payload := { document := entry.content, metadata := entry.metadata } })

/-- Modelled from the spec: the Entry-based connector operation
`search(query, collection_name, limit)` called by `mcp_server.py` is not
under `src/`.  Spec §4.3: if the collection does not exist, return the
empty list rather than failing; otherwise embed the query and run the
nearest-neighbour search restricted to the provider's named vector space,
each result carrying the original content and metadata plus a score. -/
def connector_search (provider : EmbeddingProvider) (oracle : SearchOracle)
    (db : QdrantDB) (query : String) (collection_name : String) (limit : Nat) :
    List FoundEntry :=
  match getCollection db collection_name with
  | none => []
  | some col =>
      (oracle col.points provider.get_vector_name (provider.embed_query query)
        limit none).map (fun r =>
          { content := r.payload.document
            metadata := r.payload.metadata
            score := r.score })

/-- `QdrantMCPServer.format_entry` (mcp_server.py lines 71-76): one tagged
display string; the metadata part is `json.dumps(entry.metadata)` when the
metadata is truthy and the empty string otherwise.  `json.dumps` is
standard-library code, supplied as the `jdump` parameter. -/
def format_entry (jdump : PyDict → String) (entry : FoundEntry) : String :=
  let entry_metadata :=
    if pyTruthyDict entry.metadata then jdump (entry.metadata.getD []) else ""
  "<entry><content>" ++ entry.content ++ "</content><metadata>" ++
    entry_metadata ++ "</metadata></entry>"

/-- The shared result-rendering of both `find` tools (mcp_server.py lines
124-131 and 207-214): a fixed no-results message naming the query when the
search yielded nothing, otherwise a header line followed by one formatted
string per entry. -/
def format_find_results (jdump : PyDict → String) (query : String)
    (entries : List FoundEntry) : List String :=
  if entries.isEmpty then
    ["No information found for the query '" ++ query ++ "'"]
  else
    ("Results for the query '" ++ query ++ "'") :: entries.map (format_entry jdump)

/-- `DefaultCollectionQdrantMCPServer.find` (mcp_server.py lines 102-131):
asserts that the configured default collection name is present (`none`
models the assertion firing), then searches it and renders the results. -/
def default_find (collection_name_setting : Option String)
    (provider : EmbeddingProvider) (oracle : SearchOracle)
    (jdump : PyDict → String) (db : QdrantDB) (query : String) (limit : Nat) :
    Option (List String) :=
  match collection_name_setting with
  | none => none
  | some name =>
      some (format_find_results jdump query
        (connector_search provider oracle db query name limit))

/-- `DefaultCollectionQdrantMCPServer.store` (mcp_server.py lines
133-155): asserts that the configured default collection name is present
(`none` models the assertion firing), builds the `Entry`, stores it, and
returns the confirmation message. -/
def default_store (collection_name_setting : Option String)
    (provider : EmbeddingProvider) (db : QdrantDB) (information : String)
    (metadata : Option PyDict) (point_id : String) :
    Option (Option QdrantDB × String) :=
  match collection_name_setting with
  | none => none
  | some name =>
      some (connector_store provider db
              { content := information, metadata := metadata } name point_id,
            "Remembered: " ++ information)

/-- `MultiCollectionQdrantMCPServer.find` (mcp_server.py lines 183-214):
searches the caller-supplied collection and renders the results. -/
def multi_find (provider : EmbeddingProvider) (oracle : SearchOracle)
    (jdump : PyDict → String) (db : QdrantDB) (query : String)
    (collection_name : String) (limit : Nat) : List String :=
  format_find_results jdump query
    (connector_search provider oracle db query collection_name limit)

/-- `MultiCollectionQdrantMCPServer.METADATA_COLLECTION_NAME`. -/
def METADATA_COLLECTION_NAME : String := "__mcp_metadata__"

/-- `MultiCollectionQdrantMCPServer.create_collection` (mcp_server.py
lines 271-292): store one entry whose content is the new collection's name
and whose metadata is the singleton mapping `description` into the
reserved metadata collection, and return the confirmation message. -/
def create_collection (provider : EmbeddingProvider) (db : QdrantDB)
    (collection_name : String) (description : String) (point_id : String) :
    Option QdrantDB × String :=
  (connector_store provider db
     { content := collection_name
       metadata := some [("description", PyVal.s description)] }
     METADATA_COLLECTION_NAME point_id,
   "Created collection " ++ collection_name)

/-- `QdrantMCPServer.setup_tools` (mcp_server.py lines 78-94): the names
of the registered tools — `qdrant-find` always, `qdrant-store` only when
the deployment is not read-only. -/
def setup_tools (read_only : Bool) : List String :=
  ["qdrant-find"] ++ (if read_only then [] else ["qdrant-store"])

/-- `MultiCollectionQdrantMCPServer.setup_tools` (mcp_server.py lines
166-181): the base tools, then `qdrant-list-collections` always and
`qdrant-create-collection` only when the deployment is not read-only. -/
def setup_tools_multi (read_only : Bool) : List String :=
  setup_tools read_only ++ ["qdrant-list-collections"] ++
    (if read_only then [] else ["qdrant-create-collection"])

/-- The two router variants. -/
inductive ServerVariant where
  | defaultCollection
  | multiCollection
  deriving DecidableEq, Repr

/-- `create_mcp_server` (mcp_server.py lines 295-317): the
default-collection variant exactly when a collection name is configured
(Python truthiness: present and non-empty), otherwise the multi-collection
variant. -/
def create_mcp_server (collection_name : Option String) : ServerVariant :=
  if pyTruthyStrOpt collection_name then ServerVariant.defaultCollection
  else ServerVariant.multiCollection

/-- Keyword arguments of a Python call, as a string-keyed mapping.
`PyVal.null` models a keyword explicitly supplied as `None`. -/
abbrev KwArgs := List (String × PyVal)

/-- The pop-loop of `wrap_filters.wrapper` (wrap_filters.py lines 25-27):
the filter values extracted from the keyword arguments, one per
filterable-field name that is present (explicitly-`None` values
included), in field order. -/
def popped_filter_values (fields : List String) (kwargs : KwArgs) : KwArgs :=
  match fields with
  | [] => []
  | fname :: rest =>
      match assocGet kwargs fname with
      | some v => (fname, v) :: popped_filter_values rest kwargs
      | none => popped_filter_values rest kwargs

/-- The keyword arguments left after the pop-loop of
`wrap_filters.wrapper`: every filterable-field name has been removed. -/
def remaining_kwargs (fields : List String) : KwArgs → KwArgs
  | [] => []
  | kv :: rest =>
      if memberStr fields kv.1 then remaining_kwargs fields rest
      else kv :: remaining_kwargs fields rest

/-- `wrap_filters.wrapper` (wrap_filters.py lines 20-31): positional
arguments are accepted and never used; filterable-field names are popped
out of the keyword arguments and routed into the filter construction
(`make_filter`, supplied as the `mk` parameter since
`common/filters.py` is not under `src/`); the original function receives
the remaining keyword arguments and the built filter. -/
def wrap_filters_wrapper {R : Type} (original : KwArgs → Option Filter → R)
    (mk : List String → KwArgs → Option Filter) (fields : List String)
    (args : List PyVal) (kwargs : KwArgs) : R :=
  original (remaining_kwargs fields kwargs)
    (mk fields (popped_filter_values fields kwargs))

/-- Formalisation of claim C6's own words, not of the source: one equality
condition per field with a non-null supplied value; when zero conditions
result, no filter object at all.  Used only to exhibit where the source's
`find_memories` filter construction departs from the claim. -/
def claim_filter_builder (filter_metadata : Option PyDict) : Option Filter :=
  let conds := (filter_metadata.getD []).filterMap (fun kv =>
    if kv.2 = PyVal.null then none
    else some (⟨"metadata." ++ kv.1, kv.2⟩ : FieldCondition))
  if conds.isEmpty then none else some ⟨conds⟩

/-- Concrete embedding provider for witnesses: every embedding is the
one-dimensional vector `[7]`, the vector-space name is `v`. -/
def provider0 : EmbeddingProvider :=
  { embed_query := fun _ => [7]
    embed_documents := fun ts => ts.map (fun _ => [7])
    get_vector_name := "v" }

/-- Concrete search oracle for witnesses: returns every stored point with
score 1, ignoring vector, limit and filter. -/
def oracle0 : SearchOracle :=
  fun pts _ _ _ _ => pts.map (fun p => { payload := p.payload, score := 1 })

/-- Concrete serializer stand-in for `json.dumps` in witnesses. -/
def jdump0 : PyDict → String := fun _ => "{}"

/-- Connector fixture over the collection `memories`. -/
def conn0 : QdrantConnector :=
  { collection_name := "memories", embedding_provider := provider0 }

/-- Connector fixture over the collection `a`. -/
def connA : QdrantConnector :=
  { collection_name := "a", embedding_provider := provider0 }

/-- Connector fixture over the collection `b`. -/
def connB : QdrantConnector :=
  { collection_name := "b", embedding_provider := provider0 }

/-- The empty database. -/
def dbEmpty : QdrantDB := ⟨[]⟩

/-- The database obtained by storing `hello` (no metadata) through `conn0`
into the empty database. -/
def db1fix : QdrantDB :=
  ⟨[("memories",
     { config := [("v", { size := 1, distance := Distance.COSINE })]
       points := [{ id := "id1"
                    vector := [("v", [7])]
                    payload := { document := "hello", metadata := none } }] })]⟩

/-- The database obtained by storing `hello` (no metadata) through `connA`
into the empty database. -/
def dbAfix : QdrantDB :=
  ⟨[("a",
     { config := [("v", { size := 1, distance := Distance.COSINE })]
       points := [{ id := "id1"
                    vector := [("v", [7])]
                    payload := { document := "hello", metadata := none } }] })]⟩

/-- A database already holding an empty collection `memories` with the
configuration the probe path would create. -/
def dbColFix : QdrantDB :=
  ⟨[("memories",
     { config := [("v", { size := 1, distance := Distance.COSINE })]
       points := [] })]⟩

/-- Entry fixture with absent metadata, for the formatting witness. -/
def entryFix : FoundEntry := { content := "c", metadata := none, score := 1 }

/-- Original-function fixture for the wrap_filters witness: counts the
keyword arguments it receives. -/
def original0 : KwArgs → Option Filter → Nat := fun kw _ => kw.length

/-- make_filter stand-in for the wrap_filters witness. -/
def mk0 : List String → KwArgs → Option Filter := fun _ _ => none

/-- Keyword-argument fixture: the filterable field `color` explicitly
supplied as `None`, plus an ordinary argument `q`. -/
def kwargs0 : KwArgs := [("color", PyVal.null), ("q", PyVal.s "x")]

end McpQdrant

namespace McpQdrant

theorem assocGet_append_self {α : Type} (l : List (String × α)) (key : String)
    (a : α) (h : assocGet l key = none) :
    assocGet (l ++ [(key, a)]) key = some a := by
  induction l with
  | nil => simp [assocGet]
  | cons kv t ih =>
      obtain ⟨k, v⟩ := kv
      show (if key = k then some v else assocGet (t ++ [(key, a)]) key) = some a
      have hh : (if key = k then some v else assocGet t key) = none := h
      by_cases hk : key = k
      · rw [if_pos hk] at hh; exact absurd hh (by simp)
      · rw [if_neg hk] at hh
        rw [if_neg hk]
        exact ih hh

theorem assocGet_append_ne {α : Type} (l : List (String × α)) (key : String)
    (a : α) (n : String) (h : n ≠ key) :
    assocGet (l ++ [(key, a)]) n = assocGet l n := by
  induction l with
  | nil => simp [assocGet, h]
  | cons kv t ih =>
      obtain ⟨k, v⟩ := kv
      show (if n = k then some v else assocGet (t ++ [(key, a)]) n)
        = (if n = k then some v else assocGet t n)
      by_cases hk : n = k
      · rw [if_pos hk, if_pos hk]
      · rw [if_neg hk, if_neg hk]; exact ih

theorem assocGet_setAssoc_ne {α : Type} (l : List (String × α)) (key : String)
    (a : α) (n : String) (h : n ≠ key) :
    assocGet (setAssoc l key a) n = assocGet l n := by
  induction l with
  | nil => rfl
  | cons kv t ih =>
      obtain ⟨k, v⟩ := kv
      by_cases hk : k = key
      · have hn : ¬ n = k := fun hnk => h (hnk.trans hk)
        show assocGet (if k = key then (k, a) :: setAssoc t key a
                       else (k, v) :: setAssoc t key a) n
          = (if n = k then some v else assocGet t n)
        rw [if_pos hk]
        show (if n = k then some a else assocGet (setAssoc t key a) n)
          = (if n = k then some v else assocGet t n)
        rw [if_neg hn, if_neg hn]; exact ih
      · show assocGet (if k = key then (k, a) :: setAssoc t key a
                       else (k, v) :: setAssoc t key a) n
          = (if n = k then some v else assocGet t n)
        rw [if_neg hk]
        show (if n = k then some v else assocGet (setAssoc t key a) n)
          = (if n = k then some v else assocGet t n)
        by_cases hn : n = k
        · rw [if_pos hn, if_pos hn]
        · rw [if_neg hn, if_neg hn]; exact ih

theorem assocGet_setAssoc_self {α : Type} (l : List (String × α)) (key : String)
    (a : α) :
    assocGet (setAssoc l key a) key = (assocGet l key).map (fun _ => a) := by
  induction l with
  | nil => rfl
  | cons kv t ih =>
      obtain ⟨k, v⟩ := kv
      by_cases hk : k = key
      · have hkk : key = k := hk.symm
        show assocGet (if k = key then (k, a) :: setAssoc t key a
                       else (k, v) :: setAssoc t key a) key
          = ((if key = k then some v else assocGet t key)).map (fun _ => a)
        rw [if_pos hk]
        show (if key = k then some a else assocGet (setAssoc t key a) key)
          = ((if key = k then some v else assocGet t key)).map (fun _ => a)
        rw [if_pos hkk, if_pos hkk]
        rfl
      · have hkk : ¬ key = k := fun he => hk he.symm
        show assocGet (if k = key then (k, a) :: setAssoc t key a
                       else (k, v) :: setAssoc t key a) key
          = ((if key = k then some v else assocGet t key)).map (fun _ => a)
        rw [if_neg hk]
        show (if key = k then some v else assocGet (setAssoc t key a) key)
          = ((if key = k then some v else assocGet t key)).map (fun _ => a)
        rw [if_neg hkk, if_neg hkk]
        exact ih

theorem getCollection_eq_none_of_not_exists (db : QdrantDB) (n : String)
    (h : collection_exists db n = false) : getCollection db n = none := by
  unfold collection_exists at h
  cases hc : getCollection db n with
  | none => rfl
  | some c => rw [hc] at h; exact absurd h (by simp)

theorem ensure_exists_eq (provider : EmbeddingProvider) (db : QdrantDB)
    (name : String) (h : collection_exists db name = true) :
    ensure_collection_exists provider db name = some db := by
  unfold ensure_collection_exists
  rw [if_pos h]

theorem ensure_absent_eq (provider : EmbeddingProvider) (db : QdrantDB)
    (name : String) (h : collection_exists db name = false) :
    ensure_collection_exists provider db name
      = some ⟨db.collections ++
          [(name, { config := [(provider.get_vector_name,
                     { size := (provider.embed_query "sample text").length
                       distance := Distance.COSINE })]
                    points := [] })]⟩ := by
  unfold ensure_collection_exists qdrant_create_collection
  rw [if_neg (by rw [h]; simp), if_neg (by rw [h]; simp)]

theorem ensure_frame (provider : EmbeddingProvider) (db : QdrantDB)
    (name : String) (db1 : QdrantDB)
    (h : ensure_collection_exists provider db name = some db1)
    (n : String) (hn : n ≠ name) : getCollection db1 n = getCollection db n := by
  cases hex : collection_exists db name with
  | true =>
      rw [ensure_exists_eq provider db name hex] at h
      injection h with h'
      rw [h']
  | false =>
      rw [ensure_absent_eq provider db name hex] at h
      injection h with h'
      rw [← h']
      exact assocGet_append_ne _ _ _ _ hn

theorem upsert_frame (db : QdrantDB) (name : String) (p : Point)
    (db' : QdrantDB) (h : upsertPoint db name p = some db')
    (n : String) (hn : n ≠ name) : getCollection db' n = getCollection db n := by
  unfold upsertPoint at h
  cases hc : getCollection db name with
  | none => rw [hc] at h; exact absurd h (by simp)
  | some col =>
      rw [hc] at h
      injection h with h'
      rw [← h']
      exact assocGet_setAssoc_ne _ _ _ _ hn

theorem store_memory_frame (c : QdrantConnector) (db db' : QdrantDB)
    (information : String) (metadata : Option PyDict) (point_id : String)
    (h : store_memory c db information metadata point_id = some db')
    (n : String) (hn : n ≠ c.collection_name) :
    getCollection db' n = getCollection db n := by
  unfold store_memory at h
  rcases Option.bind_eq_some.mp h with ⟨db1, hens, hup⟩
  rw [upsert_frame db1 c.collection_name _ db' hup n hn]
  exact ensure_frame c.embedding_provider db c.collection_name db1 hens n hn

theorem upsertList_fresh (pts : List Point) (p : Point)
    (h : ∀ q ∈ pts, q.id ≠ p.id) : upsertList pts p = pts ++ [p] := by
  unfold upsertList
  have : pts.filter (fun q => !(q.id == p.id)) = pts := by
    refine List.filter_eq_self.mpr (fun q hq => ?_)
    have hne : (q.id == p.id) = false := beq_eq_false_iff_ne.mpr (h q hq)
    rw [hne]
    rfl
  rw [this]

end McpQdrant

namespace McpQdrant

/-- C1: the round-trip claim fails on the code.  Storing an entry with
absent metadata through `store_memory` writes a payload without a
`metadata` key, but `find_memories` reads the metadata back with
`payload.get("metadata", {})` (qdrant.py line 131), so the entry comes
back with the empty mapping, not with absent metadata: absent metadata is
not distinguishable from empty metadata on retrieval.  This theorem
evaluates the code at the failing input: content is preserved, but the
stored `none` metadata is returned as `[]`. -/
theorem c1_absent_metadata_coerced_to_empty_mapping :
    store_memory conn0 dbEmpty "hello" none "id1" = some db1fix
    ∧ (pointsOf db1fix "memories").map (fun p => p.payload.metadata) = [none]
    ∧ find_memories conn0 oracle0 db1fix "hello" 10 none
        = some [{ document := "hello", metadata := [], score := 1 }] :=
  ⟨rfl, rfl, rfl⟩

/-- C2: searching a collection that does not exist returns the empty list
(`some []`, not an error), for every query, limit and filter, and for
every behaviour of the client's similarity search — the result does not
depend on the search oracle, so the similarity search is never consulted. -/
theorem c2_missing_collection_returns_empty (c : QdrantConnector)
    (oracle : SearchOracle) (db : QdrantDB) (query : String) (limit : Nat)
    (filter_metadata : Option PyDict)
    (h : collection_exists db c.collection_name = false) :
    find_memories c oracle db query limit filter_metadata = some [] := by
  have hn := getCollection_eq_none_of_not_exists db c.collection_name h
  unfold find_memories
  rw [hn]

theorem c2_missing_collection_returns_empty_witness :
    collection_exists dbEmpty conn0.collection_name = false
    ∧ find_memories conn0 oracle0 dbEmpty "anything" 5 none = some [] :=
  ⟨rfl, c2_missing_collection_returns_empty conn0 oracle0 dbEmpty "anything" 5 none rfl⟩

/-- C3: the lazy-create path never fails (first conjunct), is idempotent
(second conjunct, composition in the option monad), is a no-op when the
collection already exists (third conjunct), and when the collection is
absent creates it with a single named vector space under the provider's
vector name, dimensionality the length of one probe embedding of the
fixed string "sample text", and distance fixed to cosine (fourth
conjunct). -/
theorem c3_ensure_collection_idempotent_cosine (provider : EmbeddingProvider)
    (db : QdrantDB) (name : String) :
    (ensure_collection_exists provider db name).isSome = true
    ∧ (ensure_collection_exists provider db name).bind
        (fun db2 => ensure_collection_exists provider db2 name)
        = ensure_collection_exists provider db name
    ∧ (collection_exists db name = true →
        ensure_collection_exists provider db name = some db)
    ∧ (collection_exists db name = false →
        (ensure_collection_exists provider db name).map
            (fun db2 => getCollection db2 name)
          = some (some { config := [(provider.get_vector_name,
                          { size := (provider.embed_query "sample text").length
                            distance := Distance.COSINE })]
                         points := [] })) := by
  cases hex : collection_exists db name with
  | true =>
      have he := ensure_exists_eq provider db name hex
      refine ⟨by rw [he]; rfl, ?_, fun _ => he, fun hf => absurd hf (by simp)⟩
      rw [he]
      show ensure_collection_exists provider db name = some db
      exact he
  | false =>
      have he := ensure_absent_eq provider db name hex
      have hnone := getCollection_eq_none_of_not_exists db name hex
      have hget : getCollection
          (⟨db.collections ++
            [(name, { config := [(provider.get_vector_name,
                       { size := (provider.embed_query "sample text").length
                         distance := Distance.COSINE })]
                      points := [] })]⟩ : QdrantDB) name
          = some { config := [(provider.get_vector_name,
                    { size := (provider.embed_query "sample text").length
                      distance := Distance.COSINE })]
                   points := [] } :=
        assocGet_append_self db.collections name _ hnone
      refine ⟨by rw [he]; rfl, ?_, fun ht => absurd ht (by simp), fun _ => ?_⟩
      · rw [he]
        show ensure_collection_exists provider _ name = some _
        apply ensure_exists_eq
        unfold collection_exists
        rw [hget]
        rfl
      · rw [he]
        rw [Option.map_some']
        rw [hget]

theorem c3_ensure_collection_idempotent_cosine_witness :
    (ensure_collection_exists provider0 dbEmpty "memories").isSome = true
    ∧ collection_exists dbColFix "memories" = true
    ∧ ensure_collection_exists provider0 dbColFix "memories" = some dbColFix
    ∧ collection_exists dbEmpty "memories" = false
    ∧ (ensure_collection_exists provider0 dbEmpty "memories").map
        (fun db2 => getCollection db2 "memories")
        = some (some { config := [("v", { size := 1, distance := Distance.COSINE })]
                       points := [] }) :=
  ⟨(c3_ensure_collection_idempotent_cosine provider0 dbEmpty "memories").1, rfl,
   (c3_ensure_collection_idempotent_cosine provider0 dbColFix "memories").2.2.1 rfl, rfl,
   (c3_ensure_collection_idempotent_cosine provider0 dbEmpty "memories").2.2.2 rfl⟩

/-- C4: multi-collection isolation.  A store through a connector bound to
collection A leaves every other collection untouched, so a search through
a connector bound to a different collection B returns exactly what it
returned before the store — the stored entry is never among B's results. -/
theorem c4_collection_isolation (cA cB : QdrantConnector) (oracle : SearchOracle)
    (db db' : QdrantDB) (information : String) (metadata : Option PyDict)
    (point_id : String) (query : String) (limit : Nat)
    (filter_metadata : Option PyDict)
    (hne : cB.collection_name ≠ cA.collection_name)
    (hst : store_memory cA db information metadata point_id = some db') :
    find_memories cB oracle db' query limit filter_metadata
      = find_memories cB oracle db query limit filter_metadata := by
  have hframe := store_memory_frame cA db db' information metadata point_id hst
      cB.collection_name hne
  unfold find_memories
  rw [hframe]

theorem c4_collection_isolation_witness :
    connB.collection_name ≠ connA.collection_name
    ∧ store_memory connA dbEmpty "hello" none "id1" = some dbAfix
    ∧ find_memories connB oracle0 dbAfix "hello" 10 none
        = find_memories connB oracle0 dbEmpty "hello" 10 none :=
  ⟨by decide, rfl,
   c4_collection_isolation connA connB oracle0 dbEmpty dbAfix "hello" none "id1"
     "hello" 10 none (by decide) rfl⟩

/-- C5: read-only gating of the registered tool sets, for both variants
and both values of the flag: read-only registers neither `qdrant-store`
nor `qdrant-create-collection` while keeping `qdrant-find` (and
`qdrant-list-collections` in the multi-collection variant); a
non-read-only deployment registers `qdrant-store` (and
`qdrant-create-collection` in the multi-collection variant). -/
theorem c5_read_only_tool_gating :
    ("qdrant-store" ∉ setup_tools true)
    ∧ ("qdrant-store" ∉ setup_tools_multi true)
    ∧ ("qdrant-create-collection" ∉ setup_tools_multi true)
    ∧ ("qdrant-create-collection" ∉ setup_tools true)
    ∧ ("qdrant-create-collection" ∉ setup_tools false)
    ∧ ("qdrant-find" ∈ setup_tools true)
    ∧ ("qdrant-find" ∈ setup_tools_multi true)
    ∧ ("qdrant-list-collections" ∈ setup_tools_multi true)
    ∧ ("qdrant-store" ∈ setup_tools false)
    ∧ ("qdrant-store" ∈ setup_tools_multi false)
    ∧ ("qdrant-create-collection" ∈ setup_tools_multi false) := by
  decide

end McpQdrant

namespace McpQdrant

/-- C6 counterexample: the claim says a field supplied with a null value
contributes no condition and that with zero non-null values no filter
object is produced; the filter construction of `find_memories` produces a
filter with one condition matching the null value instead. -/
theorem c6_counterexample_null_value_gets_condition :
    filter_condition_of (some [("a", PyVal.null)])
        = some { must := [{ key := "metadata.a", match_value := PyVal.null }] }
    ∧ claim_filter_builder (some [("a", PyVal.null)]) = none
    ∧ filter_condition_of (some [("a", PyVal.null)])
        ≠ claim_filter_builder (some [("a", PyVal.null)]) :=
  ⟨rfl, rfl, by decide⟩

/-- C6 amended: the filter built by `find_memories` is the conjunction
(`must`) of exactly one equality condition per field of the supplied
mapping — null-valued fields included — each matching key
`metadata.<field name>` against the supplied value; when the mapping is
absent or empty, no filter object is produced at all, so the database
performs an unfiltered search. -/
theorem c6_amended_filter_construction :
    filter_condition_of none = none
    ∧ filter_condition_of (some []) = none
    ∧ (∀ (kv : String × PyVal) (kvs : PyDict),
        filter_condition_of (some (kv :: kvs))
          = some { must := (kv :: kvs).map
                     (fun p => { key := "metadata." ++ p.1, match_value := p.2 }) }) :=
  ⟨rfl, rfl, fun kv kvs => rfl⟩

/-- The store operation of the Entry-based connector appends exactly one
point (with the entry's content and metadata, under a fresh id) to the
target collection and leaves every other collection untouched. -/
theorem connector_store_spec (provider : EmbeddingProvider) (db : QdrantDB)
    (entry : Entry) (cname pid : String)
    (hfresh : ∀ q ∈ pointsOf db cname, q.id ≠ pid) :
    ∃ db', connector_store provider db entry cname pid = some db'
      ∧ pointsOf db' cname = pointsOf db cname ++
          [{ id := pid
             vector := [(provider.get_vector_name,
                         (provider.embed_documents [entry.content]).getD 0 [])]
             payload := { document := entry.content, metadata := entry.metadata } }]
      ∧ ∀ n, n ≠ cname → getCollection db' n = getCollection db n := by
  cases hex : collection_exists db cname with
  | true =>
      cases hc : getCollection db cname with
      | none =>
          unfold collection_exists at hex
          rw [hc] at hex
          exact absurd hex (by simp)
      | some col =>
          have hca : assocGet db.collections cname = some col := hc
          have hpts : pointsOf db cname = col.points := by
            unfold pointsOf
            rw [hc]
            rfl
          have hfresh' : ∀ q ∈ col.points, q.id ≠ pid := by
            rw [hpts] at hfresh; exact hfresh
          have hup := upsertList_fresh col.points
              { id := pid
                vector := [(provider.get_vector_name,
                            (provider.embed_documents [entry.content]).getD 0 [])]
                payload := { document := entry.content,
                             metadata := entry.metadata } } hfresh'
          refine ⟨⟨setAssoc db.collections cname
              { col with points := upsertList col.points
                                     { id := pid
                                       vector := [(provider.get_vector_name,
                                                   (provider.embed_documents [entry.content]).getD 0 [])]
                                       payload := { document := entry.content,
                                                    metadata := entry.metadata } } }⟩, ?_, ?_, ?_⟩
          · unfold connector_store
            rw [ensure_exists_eq provider db cname hex]
            rw [Option.some_bind]
            unfold upsertPoint
            rw [hc]
          · simp only [pointsOf, getCollection]
            rw [assocGet_setAssoc_self, hca]
            simp only [Option.map_some', Option.getD_some]
            exact hup
          · intro n hn
            unfold getCollection
            exact assocGet_setAssoc_ne _ _ _ _ hn
  | false =>
      have hnone := getCollection_eq_none_of_not_exists db cname hex
      have hnoneA : assocGet db.collections cname = none := hnone
      have he := ensure_absent_eq provider db cname hex
      have hget := assocGet_append_self db.collections cname
          ({ config := [(provider.get_vector_name,
               { size := (provider.embed_query "sample text").length
                 distance := Distance.COSINE })]
             points := [] } : Collection) hnone
      have hgetC : getCollection
          (⟨db.collections ++
            [(cname, { config := [(provider.get_vector_name,
                        { size := (provider.embed_query "sample text").length
                          distance := Distance.COSINE })]
                       points := [] })]⟩ : QdrantDB) cname
          = some { config := [(provider.get_vector_name,
                    { size := (provider.embed_query "sample text").length
                      distance := Distance.COSINE })]
                   points := [] } := hget
      refine ⟨⟨setAssoc (db.collections ++
          [(cname, { config := [(provider.get_vector_name,
                      { size := (provider.embed_query "sample text").length
                        distance := Distance.COSINE })]
                     points := [] })]) cname
            { config := [(provider.get_vector_name,
                { size := (provider.embed_query "sample text").length
                  distance := Distance.COSINE })]
              points := upsertList []
                          { id := pid
                            vector := [(provider.get_vector_name,
                                        (provider.embed_documents [entry.content]).getD 0 [])]
                            payload := { document := entry.content,
                                         metadata := entry.metadata } } }⟩, ?_, ?_, ?_⟩
      · unfold connector_store
        rw [he]
        rw [Option.some_bind]
        unfold upsertPoint
        rw [hgetC]
      · simp only [pointsOf, getCollection]
        rw [assocGet_setAssoc_self, hget, hnoneA]
        simp only [Option.map_some', Option.getD_some, Option.map_none',
          Option.getD_none, List.nil_append]
        rfl
      · intro n hn
        unfold getCollection
        rw [assocGet_setAssoc_ne _ _ _ _ hn]
        exact assocGet_append_ne _ _ _ _ hn

/-- C7 counterexample: at the collection name X equal to the reserved
metadata collection name, `create_collection` does create the underlying
vector collection named X (the lazy-create path of the store into the
metadata collection materializes it), contradicting the claim's "for every
collection name X ... it does not create that underlying vector
collection". -/
theorem c7_counterexample_metadata_collection_name :
    collection_exists dbEmpty METADATA_COLLECTION_NAME = false
    ∧ ((create_collection provider0 dbEmpty METADATA_COLLECTION_NAME "purpose" "id0").1).map
        (fun db' => collection_exists db' METADATA_COLLECTION_NAME) = some true :=
  ⟨rfl, rfl⟩

/-- C7 amended: for every collection name X other than the reserved
metadata collection name, `create_collection(X, d)` succeeds and stores
exactly one new entry into the reserved metadata collection — content X,
metadata the singleton mapping description = d — while the vector
collection named X itself is left completely unchanged (its creation
remains deferred to the first store targeting X); the returned message is
the confirmation.  The freshness hypothesis on the generated point id
models `uuid.uuid4().hex`. -/
theorem c7_amended_create_collection_records_metadata_only
    (provider : EmbeddingProvider) (db : QdrantDB) (X d pid : String)
    (hX : X ≠ METADATA_COLLECTION_NAME)
    (hfresh : ∀ q ∈ pointsOf db METADATA_COLLECTION_NAME, q.id ≠ pid) :
    ((create_collection provider db X d pid).1).map
        (fun db' => getCollection db' X) = some (getCollection db X)
    ∧ ((create_collection provider db X d pid).1).map
        (fun db' => pointsOf db' METADATA_COLLECTION_NAME)
        = some (pointsOf db METADATA_COLLECTION_NAME ++
            [{ id := pid
               vector := [(provider.get_vector_name,
                           (provider.embed_documents [X]).getD 0 [])]
               payload := { document := X
                            metadata := some [("description", PyVal.s d)] } }])
    ∧ (create_collection provider db X d pid).2 = "Created collection " ++ X := by
  rcases connector_store_spec provider db
      { content := X, metadata := some [("description", PyVal.s d)] }
      METADATA_COLLECTION_NAME pid hfresh with ⟨db', hst, hpts, hframe⟩
  have h1 : (create_collection provider db X d pid).1
      = connector_store provider db
          { content := X, metadata := some [("description", PyVal.s d)] }
          METADATA_COLLECTION_NAME pid := rfl
  refine ⟨?_, ?_, rfl⟩
  · rw [h1, hst, Option.map_some']
    rw [hframe X hX]
  · rw [h1, hst, Option.map_some']
    rw [hpts]

theorem c7_amended_create_collection_records_metadata_only_witness :
    ("projects" ≠ METADATA_COLLECTION_NAME)
    ∧ ((create_collection provider0 dbEmpty "projects" "p" "id9").1).map
        (fun db' => getCollection db' "projects")
        = some (getCollection dbEmpty "projects")
    ∧ ((create_collection provider0 dbEmpty "projects" "p" "id9").1).map
        (fun db' => pointsOf db' METADATA_COLLECTION_NAME)
        = some (pointsOf dbEmpty METADATA_COLLECTION_NAME ++
            [{ id := "id9"
               vector := [("v", [7])]
               payload := { document := "projects"
                            metadata := some [("description", PyVal.s "p")] } }])
    ∧ (create_collection provider0 dbEmpty "projects" "p" "id9").2
        = "Created collection " ++ "projects" := by
  have h := c7_amended_create_collection_records_metadata_only provider0 dbEmpty
      "projects" "p" "id9" (by decide)
      (by intro q hq; exact absurd hq (List.not_mem_nil q))
  exact ⟨by decide, h.1, h.2.1, h.2.2⟩

end McpQdrant

namespace McpQdrant

/-- C8: result formatting of find.  A search yielding zero entries renders
to the fixed no-results message, which contains the original query string
(second conjunct exhibits it as an infix); a non-empty result renders to a
header line followed by one tagged display string per entry; an entry with
absent metadata renders with the empty string as its metadata part; and
both router variants render through this same pipeline (the
default-collection variant wraps the very list the multi-collection
variant returns). -/
theorem c8_find_result_formatting (jdump : PyDict → String) (query : String) :
    format_find_results jdump query []
        = ["No information found for the query '" ++ query ++ "'"]
    ∧ (∃ pre post, "No information found for the query '" ++ query ++ "'"
        = pre ++ query ++ post)
    ∧ (∀ (e : FoundEntry) (rest : List FoundEntry),
        format_find_results jdump query (e :: rest)
          = ("Results for the query '" ++ query ++ "'")
              :: (e :: rest).map (format_entry jdump))
    ∧ (∀ e : FoundEntry, e.metadata = none →
        format_entry jdump e
          = "<entry><content>" ++ e.content ++ "</content><metadata>" ++ "" ++
              "</metadata></entry>")
    ∧ (∀ (provider : EmbeddingProvider) (oracle : SearchOracle) (db : QdrantDB)
          (name : String) (limit : Nat),
        default_find (some name) provider oracle jdump db query limit
          = some (multi_find provider oracle jdump db query name limit)) := by
  refine ⟨rfl, ⟨"No information found for the query '", "'", rfl⟩,
    fun e rest => rfl, fun e he => ?_, fun provider oracle db name limit => rfl⟩
  unfold format_entry
  rw [he]
  rfl

theorem c8_find_result_formatting_witness :
    format_find_results jdump0 "q" []
        = ["No information found for the query '" ++ "q" ++ "'"]
    ∧ format_entry jdump0 entryFix
        = "<entry><content>" ++ entryFix.content ++ "</content><metadata>" ++ "" ++
            "</metadata></entry>" :=
  ⟨(c8_find_result_formatting jdump0 "q").1,
   (c8_find_result_formatting jdump0 "q").2.2.2.1 entryFix rfl⟩

/-- C9: in every server the factory builds as the default-collection
variant, the collection-name assertions of `find` and `store` never fire.
The factory chooses the default-collection variant only when the
configured collection name is truthy (present and non-empty), and the
assertion only fires on an absent name, so the failure branch (`none`) is
unreachable for factory-built servers. -/
theorem c9_factory_default_assertion_unreachable (cn : Option String)
    (provider : EmbeddingProvider) (oracle : SearchOracle)
    (jdump : PyDict → String) (db : QdrantDB) (query : String) (limit : Nat)
    (information : String) (metadata : Option PyDict) (point_id : String)
    (h : create_mcp_server cn = ServerVariant.defaultCollection) :
    (default_find cn provider oracle jdump db query limit).isSome = true
    ∧ (default_store cn provider db information metadata point_id).isSome = true := by
  cases cn with
  | none => exact absurd h (by decide)
  | some name => exact ⟨rfl, rfl⟩

theorem c9_factory_default_assertion_unreachable_witness :
    create_mcp_server (some "memories") = ServerVariant.defaultCollection
    ∧ (default_find (some "memories") provider0 oracle0 jdump0 dbEmpty "q" 10).isSome = true
    ∧ (default_store (some "memories") provider0 dbEmpty "hello" none "id1").isSome = true := by
  have h := c9_factory_default_assertion_unreachable (some "memories") provider0
      oracle0 jdump0 dbEmpty "q" 10 "hello" none "id1" (by decide)
  exact ⟨by decide, h.1, h.2⟩

theorem assocGet_remaining_none (fields : List String) (kwargs : KwArgs)
    (f : String) (h : memberStr fields f = true) :
    assocGet (remaining_kwargs fields kwargs) f = none := by
  induction kwargs with
  | nil => rfl
  | cons kv t ih =>
      obtain ⟨k, v⟩ := kv
      show assocGet (if memberStr fields k then remaining_kwargs fields t
                     else (k, v) :: remaining_kwargs fields t) f = none
      by_cases hm : memberStr fields k = true
      · rw [if_pos hm]; exact ih
      · rw [if_neg hm]
        have hfk : ¬ f = k := fun he => hm (he ▸ h)
        show (if f = k then some v else assocGet (remaining_kwargs fields t) f) = none
        rw [if_neg hfk]
        exact ih

theorem assocGet_popped_some (fields : List String) (kwargs : KwArgs)
    (f : String) (v : PyVal) (hk : assocGet kwargs f = some v)
    (hm : memberStr fields f = true) :
    assocGet (popped_filter_values fields kwargs) f = some v := by
  induction fields with
  | nil => exact absurd hm (by simp [memberStr])
  | cons x xs ih =>
      by_cases hfx : f = x
      · show assocGet (match assocGet kwargs x with
              | some w => (x, w) :: popped_filter_values xs kwargs
              | none => popped_filter_values xs kwargs) f = some v
        rw [← hfx, hk]
        show (if f = f then some v else assocGet (popped_filter_values xs kwargs) f)
          = some v
        rw [if_pos rfl]
      · have hm' : memberStr xs f = true := by
          have hstep : memberStr (x :: xs) f
              = (if f = x then true else memberStr xs f) := rfl
          rw [hstep, if_neg hfx] at hm
          exact hm
        show assocGet (match assocGet kwargs x with
              | some w => (x, w) :: popped_filter_values xs kwargs
              | none => popped_filter_values xs kwargs) f = some v
        cases hx : assocGet kwargs x with
        | some w =>
            show (if f = x then some w else assocGet (popped_filter_values xs kwargs) f)
              = some v
            rw [if_neg hfx]
            exact ih hm'
        | none => exact ih hm'

theorem assocGet_remaining_not_mem (fields : List String) (kwargs : KwArgs)
    (f : String) (h : memberStr fields f = false) :
    assocGet (remaining_kwargs fields kwargs) f = assocGet kwargs f := by
  induction kwargs with
  | nil => rfl
  | cons kv t ih =>
      obtain ⟨k, v⟩ := kv
      show assocGet (if memberStr fields k then remaining_kwargs fields t
                     else (k, v) :: remaining_kwargs fields t) f
        = (if f = k then some v else assocGet t f)
      by_cases hm : memberStr fields k = true
      · rw [if_pos hm]
        have hfk : ¬ f = k := by
          intro he
          rw [he] at h
          rw [h] at hm
          exact Bool.noConfusion hm
        rw [if_neg hfk]
        exact ih
      · rw [if_neg hm]
        show (if f = k then some v else assocGet (remaining_kwargs fields t) f)
          = (if f = k then some v else assocGet t f)
        by_cases hfk : f = k
        · rw [if_pos hfk, if_pos hfk]
        · rw [if_neg hfk, if_neg hfk]
          exact ih

/-- C10: a wrapped function accepts keyword arguments only.  The result
never depends on the positional arguments (first conjunct: any two
positional-argument lists give the same result); every filterable-field
name is absent from the keyword arguments passed through to the original
function (second conjunct); every filterable-field name present in the
keyword arguments — a field explicitly supplied as null included, since
the quantification covers `PyVal.null` — is routed into the filter
construction's value mapping (third conjunct); and non-filterable keyword
arguments pass through unchanged (fourth conjunct). -/
theorem c10_wrap_filters_kwargs_only (R : Type)
    (original : KwArgs → Option Filter → R)
    (mk : List String → KwArgs → Option Filter) (fields : List String)
    (args args' : List PyVal) (kwargs : KwArgs) :
    wrap_filters_wrapper original mk fields args kwargs
      = wrap_filters_wrapper original mk fields args' kwargs
    ∧ (∀ f, memberStr fields f = true →
        assocGet (remaining_kwargs fields kwargs) f = none)
    ∧ (∀ f v, memberStr fields f = true → assocGet kwargs f = some v →
        assocGet (popped_filter_values fields kwargs) f = some v)
    ∧ (∀ f, memberStr fields f = false →
        assocGet (remaining_kwargs fields kwargs) f = assocGet kwargs f) :=
  ⟨rfl, fun f h => assocGet_remaining_none fields kwargs f h,
   fun f v hm hk => assocGet_popped_some fields kwargs f v hk hm,
   fun f h => assocGet_remaining_not_mem fields kwargs f h⟩

theorem c10_wrap_filters_kwargs_only_witness :
    wrap_filters_wrapper original0 mk0 ["color"] [PyVal.i 1] kwargs0
      = wrap_filters_wrapper original0 mk0 ["color"] [] kwargs0
    ∧ memberStr ["color"] "color" = true
    ∧ assocGet (remaining_kwargs ["color"] kwargs0) "color" = none
    ∧ assocGet kwargs0 "color" = some PyVal.null
    ∧ assocGet (popped_filter_values ["color"] kwargs0) "color" = some PyVal.null
    ∧ memberStr ["color"] "q" = false
    ∧ assocGet (remaining_kwargs ["color"] kwargs0) "q" = assocGet kwargs0 "q" := by
  have h := c10_wrap_filters_kwargs_only Nat original0 mk0 ["color"]
      [PyVal.i 1] [] kwargs0
  refine ⟨h.1, by decide, h.2.1 "color" (by decide), by decide,
    h.2.2.1 "color" PyVal.null (by decide) (by decide), by decide,
    h.2.2.2 "q" (by decide)⟩

end McpQdrant
